import Mathlib

/-!
Shallow embedding of `JanggiGame.py` (paulscrugham/janggi).

Modelling conventions:
* A board coordinate is the *decoded* form used throughout the source:
  a pair `(file, rank) : Int × Int` where the file is the character code
  (`'a'` = 97 … `'i'` = 105) and the rank is 1..10.  The encoded string
  form (`"a1"` … `"i10"`) only appears at the `make_move` entry point,
  where the Python dictionary lookup can raise `KeyError`; that entry is
  modelled by `makeMoveStr` returning `Except Unit _` (`.error` = raised
  `KeyError`).
* The Python board is a dict holding exactly the 90 keys, each mapping to
  a piece object or `None`.  Pieces are heap objects whose `_location`
  field is mutated in place while the board stores references to them.
  We model the heap explicitly: `pieces : List Piece` is the heap
  (indices are object identities) and the board `positions :
  List (Option Nat)` (length 90, rank-major in the dict insertion order)
  stores piece indices.  This keeps the source's aliasing behaviour
  (restoring the board dictionary does not restore a piece's mutated
  `_location`).
* `board[x]` on a coordinate that is always a valid key in the source
  (palace coordinates, guarded soldier steps) is modelled by the total
  `boardAt`; `encoded not in board.keys()` bound tests are modelled by
  `boardGet` returning `none`.
* The unbounded `while` loops of `Chariot._test_destinations` and
  `Cannon._test_destinations` advance one cell per iteration and exit by
  `return` at the latest when they run off the 9×10 board, i.e. after at
  most 10 iterations; they are modelled with a fuel parameter `rayFuel =
  12`, which is enough for every start cell.
* Each piece's `_possible_moves` member is a cache that every reader
  recomputes via `find_moves` before reading; move generation is
  therefore modelled as pure functions returning the list.
-/

set_option maxRecDepth 8000

namespace Janggi

/-- Piece kinds, named by the two-letter name tags of the source classes
(`"So"`, `"Ca"`, `"Ch"`, `"El"`, `"Ho"`, `"Gu"`, `"Ge"`). -/
inductive Kind
  | So | Ca | Ch | El | Ho | Gu | Ge
deriving DecidableEq

/-- The two sides, the source's strings `'blue'` and `'red'`. -/
inductive Color
  | blue | red
deriving DecidableEq

/-- Game state strings `'UNFINISHED'`, `'BLUE_WON'`, `'RED_WON'`. -/
inductive GState
  | UNFINISHED | BLUE_WON | RED_WON
deriving DecidableEq

/-- A piece object: color, name tag (kind), mutable location and the
direction sign set from the color at creation (`Piece.__init__` plus the
setters called from `JanggiGame.__init__`). -/
structure Piece where
  kind : Kind
  color : Color
  direction : Int
  location : Int × Int
deriving DecidableEq

/-- Default piece used by the total heap read `getPiece`; never
dereferenced on the states the theorems are about. -/
def dummyPiece : Piece :=
  { kind := Kind.So, color := Color.blue, direction := 0, location := (0, 0) }

/-- Heap read: the piece object stored at index `id`. -/
def getPiece (pieces : List Piece) (id : Nat) : Piece :=
  pieces.getD id dummyPiece

/-- Index of a decoded coordinate in the board dictionary's insertion
order (`for num in range(1, 11): for char in range(97, 106)`), `none` if
the coordinate is not one of the 90 keys. -/
def posIdx (p : Int × Int) : Option Nat :=
  if 97 ≤ p.1 ∧ p.1 ≤ 105 ∧ 1 ≤ p.2 ∧ p.2 ≤ 10 then
    some ((p.2 - 1).toNat * 9 + (p.1 - 97).toNat)
  else none

/-- `board[p]` together with the key-membership test: `none` means `p`
is not a key of the dictionary (off the board), `some c` is the stored
cell (`c = none` is an empty cell, `c = some id` a piece reference). -/
def boardGet (positions : List (Option Nat)) (p : Int × Int) : Option (Option Nat) :=
  (posIdx p).bind fun i => positions.get? i

/-- `board[p]` for the coordinates the source only ever reads with valid
keys: the contained cell, flattened. -/
def boardAt (positions : List (Option Nat)) (p : Int × Int) : Option Nat :=
  (boardGet positions p).join

/-- `positions[p] = v` (every write in the source is to a valid key). -/
def boardSet (positions : List (Option Nat)) (p : Int × Int) (v : Option Nat) :
    List (Option Nat) :=
  match posIdx p with
  | some i => positions.set i v
  | none => positions

/-- The 90 board keys in dictionary insertion order. -/
def allPositions : List (Int × Int) :=
  ((List.range 10).map fun n =>
    (List.range 9).map fun c => (((97 + c : Nat) : Int), ((1 + n : Nat) : Int))).flatten

/-- The palace coordinate tables of `JanggiGame.__init__` (`self._palaces`). -/
structure Palaces where
  red_palace : List (Int × Int)
  red_palace_center : Int × Int
  red_palace_corners : List (Int × Int)
  blue_palace : List (Int × Int)
  blue_palace_center : Int × Int
  blue_palace_corners : List (Int × Int)

/-- The concrete palace table built by the game constructor. -/
def gamePalaces : Palaces :=
  { red_palace := [(100,1), (100,2), (100,3), (101,1), (101,2), (101,3),
      (102,1), (102,2), (102,3)]
    red_palace_center := (101,2)
    red_palace_corners := [(100,1), (100,3), (102,1), (102,3)]
    blue_palace := [(100,8), (100,9), (100,10), (101,8), (101,9), (101,10),
      (102,8), (102,9), (102,10)]
    blue_palace_center := (101,9)
    blue_palace_corners := [(100,8), (100,10), (102,8), (102,10)] }

/-- The recurring destination test `if board[x] is None: append(x) elif
board[x].get_color() != self._color: append(x)`, returning the appended
list (`[x]` or `[]`).  Used verbatim by Soldier, Chariot and Cannon
palace moves. -/
def landable (c : Color) (positions : List (Option Nat)) (pieces : List Piece)
    (q : Int × Int) : List (Int × Int) :=
  match boardAt positions q with
  | none => [q]
  | some id => if (getPiece pieces id).color ≠ c then [q] else []

/-! ## Soldier -/

/-- `Soldier.find_moves`. -/
def soldierFindMoves (self : Piece) (positions : List (Option Nat))
    (pieces : List Piece) (palaces : Palaces) : List (Int × Int) :=
  let p := self.location
  -- no move (pass turn)
  [p]
  -- left move
  ++ (if p.1 > 97 then landable self.color positions pieces (p.1 - 1, p.2) else [])
  -- right move
  ++ (if p.1 < 105 then landable self.color positions pieces (p.1 + 1, p.2) else [])
  -- forward move
  ++ (if 1 < p.2 ∧ p.2 < 10 then
        landable self.color positions pieces (p.1, p.2 + 1 * self.direction)
      else [])
  -- diagonal palace movement (a soldier is never in its own palace)
  ++ (let palCenter := if self.color = Color.red then palaces.blue_palace_center
        else palaces.red_palace_center
      let palCorners := if self.color = Color.red then palaces.blue_palace_corners
        else palaces.red_palace_corners
      (if p ∈ palCorners ∧ palCenter.2 = p.2 + 1 * self.direction then
        landable self.color positions pieces palCenter
      else [])
      ++ (if p = palCenter then
            palCorners.foldr (fun corner acc =>
              (if corner.2 = p.2 + 1 * self.direction then
                landable self.color positions pieces corner
              else []) ++ acc) []
          else []))

/-! ## Chariot -/

/-- Fuel bound for the sliding loops; 12 > 10 suffices to run off the
board from any start cell. -/
def rayFuel : Nat := 12

/-- `Chariot._test_destinations`: slide from `p` one step `u` at a time,
collecting empty cells, stopping with a capture on the first opposing
piece, stopping without a move on an own piece or the board edge.  The
Python `decoded[axis] += 1 * direction` step for the two axes and two
signs is folded into the step vector `u`. -/
def chariotRay (positions : List (Option Nat)) (pieces : List Piece) (c : Color) :
    Nat → Int × Int → Int × Int → List (Int × Int)
  | 0, _, _ => []
  | fuel + 1, p, u =>
    let q := (p.1 + u.1, p.2 + u.2)
    match boardGet positions q with
    | none => []
    | some none => q :: chariotRay positions pieces c fuel q u
    | some (some id) => if (getPiece pieces id).color ≠ c then [q] else []

/-- The opposite-corner computation shared by Chariot and Cannon palace
movement (`find the opposite corner`). -/
def oppositeCorner (p center : Int × Int) : Int × Int :=
  ((if p.1 - center.1 = 1 then p.1 - 2 else p.1 + 2),
   (if p.2 - center.2 = 1 then p.2 - 2 else p.2 + 2))

/-- The diagonal palace movement block of `Chariot.find_moves`. -/
def chariotPalaceMoves (positions : List (Option Nat)) (pieces : List Piece)
    (c : Color) (palaces : Palaces) (p : Int × Int) : List (Int × Int) :=
  let palCenter := if p ∈ palaces.blue_palace_corners then palaces.blue_palace_center
    else palaces.red_palace_center
  let palCorners := if p ∈ palaces.blue_palace_corners then palaces.blue_palace_corners
    else palaces.red_palace_corners
  if p ∈ palCorners then
    -- test center of palace, then the opposite corner (no blocking test)
    landable c positions pieces palCenter
    ++ landable c positions pieces (oppositeCorner p palCenter)
  else if p = palCenter then
    palCorners.foldr (fun corner acc => landable c positions pieces corner ++ acc) []
  else []

/-- `Chariot.find_moves`. -/
def chariotFindMoves (self : Piece) (positions : List (Option Nat))
    (pieces : List Piece) (palaces : Palaces) : List (Int × Int) :=
  let p := self.location
  [p]
  ++ chariotRay positions pieces self.color rayFuel p (0, self.direction)
  ++ chariotRay positions pieces self.color rayFuel p (0, self.direction * -1)
  ++ chariotRay positions pieces self.color rayFuel p (self.direction, 0)
  ++ chariotRay positions pieces self.color rayFuel p (self.direction * -1, 0)
  ++ chariotPalaceMoves positions pieces self.color palaces p

/-! ## Cannon -/

/-- `Cannon._test_destinations`: slide looking for a single intervening
screen piece.  Before the screen (`intervening = false`): empty cells
are skipped, a Cannon screen aborts the ray, any other piece becomes the
screen.  After the screen: empty cells are collected, a Cannon stops the
ray uncaptured, an opposing non-Cannon is captured and stops the ray, an
own piece stops the ray. -/
def cannonRay (positions : List (Option Nat)) (pieces : List Piece) (c : Color) :
    Nat → Bool → Int × Int → Int × Int → List (Int × Int)
  | 0, _, _, _ => []
  | fuel + 1, intervening, p, u =>
    let q := (p.1 + u.1, p.2 + u.2)
    match boardGet positions q with
    | none => []
    | some cell =>
      match intervening, cell with
      | true, none => q :: cannonRay positions pieces c fuel true q u
      | true, some id =>
        if (getPiece pieces id).kind = Kind.Ca then []
        else if (getPiece pieces id).color ≠ c then [q] else []
      | false, none => cannonRay positions pieces c fuel false q u
      | false, some id =>
        if (getPiece pieces id).kind = Kind.Ca then []
        else cannonRay positions pieces c fuel true q u

/-- The diagonal palace movement block of `Cannon.find_moves`: from a
palace corner, if the center is occupied (by any piece), jump to the
opposite corner if it is empty or holds an opposing piece. -/
def cannonPalaceMoves (positions : List (Option Nat)) (pieces : List Piece)
    (c : Color) (palaces : Palaces) (p : Int × Int) : List (Int × Int) :=
  let palCenter := if p ∈ palaces.blue_palace_corners then palaces.blue_palace_center
    else palaces.red_palace_center
  let palCorners := if p ∈ palaces.blue_palace_corners then palaces.blue_palace_corners
    else palaces.red_palace_corners
  if p ∈ palCorners then
    if (boardAt positions palCenter).isSome then
      landable c positions pieces (oppositeCorner p palCenter)
    else []
  else []

/-- `Cannon.find_moves`. -/
def cannonFindMoves (self : Piece) (positions : List (Option Nat))
    (pieces : List Piece) (palaces : Palaces) : List (Int × Int) :=
  let p := self.location
  [p]
  ++ cannonRay positions pieces self.color rayFuel false p (0, self.direction)
  ++ cannonRay positions pieces self.color rayFuel false p (0, self.direction * -1)
  ++ cannonRay positions pieces self.color rayFuel false p (self.direction, 0)
  ++ cannonRay positions pieces self.color rayFuel false p (self.direction * -1, 0)
  ++ cannonPalaceMoves positions pieces self.color palaces p

/-! ## Elephant and Horse -/

/-- `decoded[axis] += d` on a decoded coordinate. -/
def bump (p : Int × Int) (axis : Nat) (d : Int) : Int × Int :=
  if axis = 0 then (p.1 + d, p.2) else (p.1, p.2 + d)

/-- `Elephant._test_destinations`: one orthogonal step and two diagonal
steps, all three intermediate cells must exist, the first two must be
empty, the final cell empty or an opposing piece. -/
def elephantTestDest (self : Piece) (positions : List (Option Nat))
    (pieces : List Piece) (p : Int × Int) (fa sa : Nat) (fd sd : Int) :
    List (Int × Int) :=
  let p1 := bump p fa fd
  match boardGet positions p1 with
  | none => []
  | some (some _) => []
  | some none =>
    let p2 := bump (bump p1 fa fd) sa sd
    match boardGet positions p2 with
    | none => []
    | some (some _) => []
    | some none =>
      let p3 := bump (bump p2 fa fd) sa sd
      match boardGet positions p3 with
      | none => []
      | some none => [p3]
      | some (some id) => if (getPiece pieces id).color ≠ self.color then [p3] else []

/-- `Elephant.find_moves` (no palace-specific movement). -/
def elephantFindMoves (self : Piece) (positions : List (Option Nat))
    (pieces : List Piece) : List (Int × Int) :=
  let p := self.location
  [p]
  ++ elephantTestDest self positions pieces p 1 0 self.direction (-1)
  ++ elephantTestDest self positions pieces p 1 0 self.direction 1
  ++ elephantTestDest self positions pieces p 1 0 (self.direction * -1) (-1)
  ++ elephantTestDest self positions pieces p 1 0 (self.direction * -1) 1
  ++ elephantTestDest self positions pieces p 0 1 self.direction (-1)
  ++ elephantTestDest self positions pieces p 0 1 (self.direction * -1) (-1)
  ++ elephantTestDest self positions pieces p 0 1 self.direction 1
  ++ elephantTestDest self positions pieces p 0 1 (self.direction * -1) 1

/-- `Horse._test_destinations`: one orthogonal step (must be an empty
existing cell) and one diagonal step (empty or opposing). -/
def horseTestDest (self : Piece) (positions : List (Option Nat))
    (pieces : List Piece) (p : Int × Int) (fa sa : Nat) (fd sd : Int) :
    List (Int × Int) :=
  let p1 := bump p fa fd
  match boardGet positions p1 with
  | none => []
  | some (some _) => []
  | some none =>
    let p2 := bump (bump p1 fa fd) sa sd
    match boardGet positions p2 with
    | none => []
    | some none => [p2]
    | some (some id) => if (getPiece pieces id).color ≠ self.color then [p2] else []

/-- `Horse.find_moves` (no palace-specific movement). -/
def horseFindMoves (self : Piece) (positions : List (Option Nat))
    (pieces : List Piece) : List (Int × Int) :=
  let p := self.location
  [p]
  ++ horseTestDest self positions pieces p 1 0 self.direction (-1)
  ++ horseTestDest self positions pieces p 1 0 self.direction 1
  ++ horseTestDest self positions pieces p 1 0 (self.direction * -1) (-1)
  ++ horseTestDest self positions pieces p 1 0 (self.direction * -1) 1
  ++ horseTestDest self positions pieces p 0 1 self.direction (-1)
  ++ horseTestDest self positions pieces p 0 1 (self.direction * -1) (-1)
  ++ horseTestDest self positions pieces p 0 1 self.direction 1
  ++ horseTestDest self positions pieces p 0 1 (self.direction * -1) 1

/-! ## Guard and General -/

/-- `Guard._test_destinations`: step, require the destination inside the
own side's palace, land if empty or opposing. -/
def guardTestDest (self : Piece) (positions : List (Option Nat))
    (pieces : List Piece) (palaces : Palaces) (p : Int × Int)
    (xd yd dir : Int) : List (Int × Int) :=
  let q := (p.1 + xd * dir, p.2 + yd * dir)
  let palace := if self.color = Color.red then palaces.red_palace else palaces.blue_palace
  if q ∈ palace then
    match boardAt positions q with
    | none => [q]
    | some id => if (getPiece pieces id).color ≠ self.color then [q] else []
  else []

/-- `Guard.find_moves`. -/
def guardFindMoves (self : Piece) (positions : List (Option Nat))
    (pieces : List Piece) (palaces : Palaces) : List (Int × Int) :=
  let p := self.location
  [p]
  ++ guardTestDest self positions pieces palaces p 0 1 self.direction
  ++ guardTestDest self positions pieces palaces p 0 1 (self.direction * -1)
  ++ guardTestDest self positions pieces palaces p (-1) 0 self.direction
  ++ guardTestDest self positions pieces palaces p 1 0 self.direction
  ++ (let palCenter := if self.color = Color.red then palaces.red_palace_center
        else palaces.blue_palace_center
      let palCorners := if self.color = Color.red then palaces.red_palace_corners
        else palaces.blue_palace_corners
      (if p ∈ palCorners then
        match boardAt positions palCenter with
        | none => [palCenter]
        | some id =>
          if (getPiece pieces id).color ≠ self.color then [palCenter] else []
      else [])
      ++ (if p = palCenter then
            palCorners.foldr (fun corner acc =>
              (match boardAt positions corner with
               | none => [corner]
               | some id =>
                 if (getPiece pieces id).color ≠ self.color then [corner] else [])
              ++ acc) []
          else []))

/-- `General._test_destinations`: identical to the Guard's test except
for the class it lives in. -/
def generalTestDest (self : Piece) (positions : List (Option Nat))
    (pieces : List Piece) (palaces : Palaces) (p : Int × Int)
    (xd yd dir : Int) : List (Int × Int) :=
  let q := (p.1 + xd * dir, p.2 + yd * dir)
  let palace := if self.color = Color.red then palaces.red_palace else palaces.blue_palace
  if q ∈ palace then
    match boardAt positions q with
    | none => [q]
    | some id => if (getPiece pieces id).color ≠ self.color then [q] else []
  else []

/-- `General.find_moves`: line for line the Guard's algorithm. -/
def generalFindMoves (self : Piece) (positions : List (Option Nat))
    (pieces : List Piece) (palaces : Palaces) : List (Int × Int) :=
  let p := self.location
  [p]
  ++ generalTestDest self positions pieces palaces p 0 1 self.direction
  ++ generalTestDest self positions pieces palaces p 0 1 (self.direction * -1)
  ++ generalTestDest self positions pieces palaces p (-1) 0 self.direction
  ++ generalTestDest self positions pieces palaces p 1 0 self.direction
  ++ (let palCenter := if self.color = Color.red then palaces.red_palace_center
        else palaces.blue_palace_center
      let palCorners := if self.color = Color.red then palaces.red_palace_corners
        else palaces.blue_palace_corners
      (if p ∈ palCorners then
        match boardAt positions palCenter with
        | none => [palCenter]
        | some id =>
          if (getPiece pieces id).color ≠ self.color then [palCenter] else []
      else [])
      ++ (if p = palCenter then
            palCorners.foldr (fun corner acc =>
              (match boardAt positions corner with
               | none => [corner]
               | some id =>
                 if (getPiece pieces id).color ≠ self.color then [corner] else [])
              ++ acc) []
          else []))

/-- Dynamic dispatch of `piece.find_moves(board, palaces)` on the class
of the piece. -/
def findMoves (self : Piece) (positions : List (Option Nat)) (pieces : List Piece)
    (palaces : Palaces) : List (Int × Int) :=
  match self.kind with
  | Kind.So => soldierFindMoves self positions pieces palaces
  | Kind.Ca => cannonFindMoves self positions pieces palaces
  | Kind.Ch => chariotFindMoves self positions pieces palaces
  | Kind.El => elephantFindMoves self positions pieces
  | Kind.Ho => horseFindMoves self positions pieces
  | Kind.Gu => guardFindMoves self positions pieces palaces
  | Kind.Ge => generalFindMoves self positions pieces palaces

/-! ## The game object -/

/-- The mutable data members of a `JanggiGame` object.  The palace table
is the constant `gamePalaces` and is not repeated here. -/
structure GameState where
  game_state : GState
  turn : Color
  check : Bool
  current_move : Nat
  positions : List (Option Nat)
  pieces : List Piece
deriving DecidableEq

/-- The per-side/kind starting coordinate table of `self._init_positions`,
flattened in the order in which `JanggiGame.__init__` creates the piece
objects (soldiers, cannons, chariots, elephants, horses, guards,
generals; red before blue within each kind). -/
def initPlacements : List (Kind × Color × (Int × Int)) :=
  [(Kind.So, Color.red, (97,4)), (Kind.So, Color.red, (99,4)),
   (Kind.So, Color.red, (101,4)), (Kind.So, Color.red, (103,4)),
   (Kind.So, Color.red, (105,4)),
   (Kind.So, Color.blue, (97,7)), (Kind.So, Color.blue, (99,7)),
   (Kind.So, Color.blue, (101,7)), (Kind.So, Color.blue, (103,7)),
   (Kind.So, Color.blue, (105,7)),
   (Kind.Ca, Color.red, (98,3)), (Kind.Ca, Color.red, (104,3)),
   (Kind.Ca, Color.blue, (98,8)), (Kind.Ca, Color.blue, (104,8)),
   (Kind.Ch, Color.red, (97,1)), (Kind.Ch, Color.red, (105,1)),
   (Kind.Ch, Color.blue, (97,10)), (Kind.Ch, Color.blue, (105,10)),
   (Kind.El, Color.red, (98,1)), (Kind.El, Color.red, (103,1)),
   (Kind.El, Color.blue, (98,10)), (Kind.El, Color.blue, (103,10)),
   (Kind.Ho, Color.red, (99,1)), (Kind.Ho, Color.red, (104,1)),
   (Kind.Ho, Color.blue, (99,10)), (Kind.Ho, Color.blue, (104,10)),
   (Kind.Gu, Color.red, (100,1)), (Kind.Gu, Color.red, (102,1)),
   (Kind.Gu, Color.blue, (100,10)), (Kind.Gu, Color.blue, (102,10)),
   (Kind.Ge, Color.red, (101,2)),
   (Kind.Ge, Color.blue, (101,9))]

/-- A freshly constructed piece object (`init_piece_type` body: color,
location, and direction `1` for red, `-1` for blue). -/
def mkPiece (k : Kind) (c : Color) (loc : Int × Int) : Piece :=
  { kind := k, color := c, location := loc,
    direction := if c = Color.red then 1 else -1 }

/-- Store each created piece on the board under its starting position. -/
def placeAll : List (Kind × Color × (Int × Int)) → Nat → List (Option Nat) →
    List (Option Nat)
  | [], _, b => b
  | t :: rest, i, b => placeAll rest (i + 1) (boardSet b t.2.2 (some i))

/-- `JanggiGame.__init__`: the board dictionary filled with `None` for
all 90 keys, then the 32 pieces placed at their starting locations. -/
def initialGame : GameState :=
  { game_state := GState.UNFINISHED
    turn := Color.blue
    check := false
    current_move := 0
    positions := placeAll initPlacements 0 (List.replicate 90 none)
    pieces := initPlacements.map fun t => mkPiece t.1 t.2.1 t.2.2 }

/-- `JanggiGame.update_position(piece, source, destination)`: write the
reference stored at `source` to `destination`, update the piece object's
own location member, and clear `source` for a non-passing move. -/
def updatePosition (s : GameState) (id : Nat) (source dest : Int × Int) :
    GameState :=
  let positions := boardSet s.positions dest (boardAt s.positions source)
  let pieces := s.pieces.set id { getPiece s.pieces id with location := dest }
  let positions := if source ≠ dest then boardSet positions source none else positions
  { s with positions := positions, pieces := pieces }

/-- `JanggiGame.is_in_check(player)`: some opposing piece has a possible
move onto a `'Ge'` piece of `player`'s color.  (The Python loop also
refreshes each opposing piece's `_possible_moves` cache; the cache is
unobservable, see the header note.) -/
def isInCheck (s : GameState) (player : Color) : Bool :=
  let opp := if player = Color.red then Color.blue else Color.red
  allPositions.any fun pos =>
    match boardAt s.positions pos with
    | none => false
    | some id =>
      (getPiece s.pieces id).color == opp &&
      ((findMoves (getPiece s.pieces id) s.positions s.pieces gamePalaces).any
        fun mv =>
          match boardAt s.positions mv with
          | none => false
          | some id2 =>
            (getPiece s.pieces id2).kind == Kind.Ge &&
            (getPiece s.pieces id2).color == player)

/-- The restore step of one `is_in_checkmate` trial:
`self._positions = saved_board` followed by
`piece.set_location(position)`. -/
def trialRestore (s1 : GameState) (saved : List (Option Nat)) (id : Nat)
    (posKey : Int × Int) : GameState :=
  { s1 with positions := saved,
            pieces := s1.pieces.set id
              { getPiece s1.pieces id with location := posKey } }

/-- The inner loop of `JanggiGame.is_in_checkmate`: try every move of
the piece `id` found under the key `posKey`; each trial saves the board
dictionary, applies the move with `update_position`, tests
`is_in_check(self._turn)`, restores the saved board and resets the piece
object's location to `posKey`.  Result `true` means a trial escaped
check (the method returns `False` there). -/
def checkmateInnerLoop (id : Nat) (posKey : Int × Int) :
    GameState → List (Int × Int) → Bool × GameState
  | s, [] => (false, s)
  | s, move :: rest =>
    let saved := s.positions
    let s1 := updatePosition s id (getPiece s.pieces id).location move
    let ct := isInCheck s1 s1.turn
    let s2 := trialRestore s1 saved id posKey
    if ct then checkmateInnerLoop id posKey s2 rest else (true, s2)

/-- The outer loop of `JanggiGame.is_in_checkmate(player)` over the
board keys. -/
def checkmateOuterLoop (player : Color) :
    GameState → List (Int × Int) → Bool × GameState
  | s, [] => (true, s)
  | s, pos :: rest =>
    match boardAt s.positions pos with
    | none => checkmateOuterLoop player s rest
    | some id =>
      if (getPiece s.pieces id).color = player then
        match checkmateInnerLoop id pos s
            (findMoves (getPiece s.pieces id) s.positions s.pieces gamePalaces) with
        | (true, s2) => (false, s2)
        | (false, s2) => checkmateOuterLoop player s2 rest
      else checkmateOuterLoop player s rest

/-- `JanggiGame.is_in_checkmate(player)`, with the state it leaves
behind. -/
def isInCheckmate (s : GameState) (player : Color) : Bool × GameState :=
  checkmateOuterLoop player s allPositions

/-- `JanggiGame.make_move(source, destination)` on decoded coordinates
(`source` a valid key, as established by the string wrapper below). -/
def makeMove (s : GameState) (source dest : Int × Int) : Bool × GameState :=
  match boardAt s.positions source with
  | none => (false, s)
  | some id =>
    if (getPiece s.pieces id).color = s.turn then
      if dest ∈ findMoves (getPiece s.pieces id) s.positions s.pieces gamePalaces then
        -- save current board to test move
        let s1 := updatePosition s id source dest
        if isInCheck s1 s1.turn then
          -- restore board (the piece object's location member is NOT restored)
          (false, { s1 with positions := s.positions })
        else
          let s2 := { s1 with
            current_move := s1.current_move + 1
            turn := if s1.turn = Color.blue then Color.red else Color.blue }
          let s3 := { s2 with check := isInCheck s2 s2.turn }
          if s3.check then
            match isInCheckmate s3 s3.turn with
            | (true, s4) =>
              (true, { s4 with game_state :=
                if s4.turn = Color.red then GState.BLUE_WON else GState.RED_WON })
            | (false, s4) => (true, s4)
          else (true, s3)
      else (false, s)
    else (false, s)

/-- The canonical textual form of a board key (`'a'..'i'` followed by
`1..10` with no leading zero); `none` when the string is not a key of
the board dictionary, in which case `positions[source]` raises
`KeyError`. -/
def decodeKey (s : String) : Option (Int × Int) :=
  match s.data with
  | [c, d] =>
    if 97 ≤ c.toNat ∧ c.toNat ≤ 105 ∧ 49 ≤ d.toNat ∧ d.toNat ≤ 57 then
      some ((c.toNat : Int), (d.toNat : Int) - 48)
    else none
  | [c, d1, d2] =>
    if 97 ≤ c.toNat ∧ c.toNat ≤ 105 ∧ d1.toNat = 49 ∧ d2.toNat = 48 then
      some ((c.toNat : Int), 10)
    else none
  | _ => none

/-- `make_move` on the raw strings the caller passes.  A malformed
source raises `KeyError` at `positions[source]` (modelled as `.error`);
a malformed destination merely fails the membership test against the
generated (always well-formed) moves and returns `False`. -/
def makeMoveStr (s : GameState) (source dest : String) :
    Except Unit (Bool × GameState) :=
  match decodeKey source with
  | none => Except.error ()
  | some src =>
    match decodeKey dest with
    | none => Except.ok (false, s)
    | some d => Except.ok (makeMove s src d)

/-- The board/piece-location consistency invariant of the data model:
every piece reference stored on the board is a live heap index and the
piece object's own location member equals the key it is stored under. -/
def wfState (s : GameState) : Bool :=
  allPositions.all fun p =>
    match boardAt s.positions p with
    | none => true
    | some id =>
      decide (id < s.pieces.length) && ((getPiece s.pieces id).location == p)

/-! ## Concrete states used by the theorems -/

/-- A board with only a red General on `e2` and a blue General on `e9`,
blue to move, with the outcome field forced to `RED_WON`. -/
def terminalState : GameState :=
  { game_state := GState.RED_WON
    turn := Color.blue
    check := false
    current_move := 0
    positions := placeAll [(Kind.Ge, Color.red, (101,2)), (Kind.Ge, Color.blue, (101,9))]
      0 (List.replicate 90 none)
    pieces := [mkPiece Kind.Ge Color.red (101,2), mkPiece Kind.Ge Color.blue (101,9)] }

/-- Blue General on `e9` (heap index 0), red Chariot on `e3` (heap index
1), blue to move: the Chariot pins the file, so `e9 → e8` is pseudo-legal
but leaves blue in check. -/
def pinnedState : GameState :=
  { game_state := GState.UNFINISHED
    turn := Color.blue
    check := false
    current_move := 0
    positions := placeAll [(Kind.Ge, Color.blue, (101,9)), (Kind.Ch, Color.red, (101,3))]
      0 (List.replicate 90 none)
    pieces := [mkPiece Kind.Ge Color.blue (101,9), mkPiece Kind.Ch Color.red (101,3)] }

/-- Red to move; the blue General on `e9` is checkmated by red Chariots
on `d1`, `e1` and `f1` covering the whole blue palace, while no red
General is on the board at all. -/
def mateMismatchState : GameState :=
  { game_state := GState.UNFINISHED
    turn := Color.red
    check := false
    current_move := 0
    positions := placeAll
      [(Kind.Ch, Color.red, (100,1)), (Kind.Ch, Color.red, (101,1)),
       (Kind.Ch, Color.red, (102,1)), (Kind.Ge, Color.blue, (101,9))]
      0 (List.replicate 90 none)
    pieces := [mkPiece Kind.Ch Color.red (100,1), mkPiece Kind.Ch Color.red (101,1),
      mkPiece Kind.Ch Color.red (102,1), mkPiece Kind.Ge Color.blue (101,9)] }

/-- Board with a blue Chariot on the blue palace corner `d8` (index 0)
and a red Soldier occupying the palace center `e9` (index 1). -/
def cornerChariotBoard : List (Option Nat) :=
  placeAll [(Kind.Ch, Color.blue, (100,8)), (Kind.So, Color.red, (101,9))]
    0 (List.replicate 90 none)

/-- The pieces of `cornerChariotBoard`. -/
def cornerChariotPieces : List Piece :=
  [mkPiece Kind.Ch Color.blue (100,8), mkPiece Kind.So Color.red (101,9)]

/-- Board with a blue Cannon on the blue palace corner `d8` (index 0)
and a red Cannon occupying the palace center `e9` (index 1). -/
def cornerCannonBoard : List (Option Nat) :=
  placeAll [(Kind.Ca, Color.blue, (100,8)), (Kind.Ca, Color.red, (101,9))]
    0 (List.replicate 90 none)

/-- The pieces of `cornerCannonBoard`. -/
def cornerCannonPieces : List Piece :=
  [mkPiece Kind.Ca Color.blue (100,8), mkPiece Kind.Ca Color.red (101,9)]

/-- Board with a single red Soldier on `a1` (index 0). -/
def rankOneSoldierBoard : List (Option Nat) :=
  placeAll [(Kind.So, Color.red, (97,1))] 0 (List.replicate 90 none)

/-- The pieces of `rankOneSoldierBoard`. -/
def rankOneSoldierPieces : List Piece :=
  [mkPiece Kind.So Color.red (97,1)]

/-! ## Specification-side definitions used in theorem statements -/

/-- The observable occupant of a cell: side and kind of the piece stored
there, if any (the spec's `snapshot` view). -/
def occupant (s : GameState) (p : Int × Int) : Option (Kind × Color) :=
  (boardAt s.positions p).map fun id =>
    ((getPiece s.pieces id).kind, (getPiece s.pieces id).color)

/-- The fixed starting layout as enumerated by the specification's
per-side/kind coordinate table (§3 of the spec). -/
def specStartTable : List ((Int × Int) × Kind × Color) :=
  [((97,4), Kind.So, Color.red), ((99,4), Kind.So, Color.red),
   ((101,4), Kind.So, Color.red), ((103,4), Kind.So, Color.red),
   ((105,4), Kind.So, Color.red),
   ((97,7), Kind.So, Color.blue), ((99,7), Kind.So, Color.blue),
   ((101,7), Kind.So, Color.blue), ((103,7), Kind.So, Color.blue),
   ((105,7), Kind.So, Color.blue),
   ((98,3), Kind.Ca, Color.red), ((104,3), Kind.Ca, Color.red),
   ((98,8), Kind.Ca, Color.blue), ((104,8), Kind.Ca, Color.blue),
   ((97,1), Kind.Ch, Color.red), ((105,1), Kind.Ch, Color.red),
   ((97,10), Kind.Ch, Color.blue), ((105,10), Kind.Ch, Color.blue),
   ((98,1), Kind.El, Color.red), ((103,1), Kind.El, Color.red),
   ((98,10), Kind.El, Color.blue), ((103,10), Kind.El, Color.blue),
   ((99,1), Kind.Ho, Color.red), ((104,1), Kind.Ho, Color.red),
   ((99,10), Kind.Ho, Color.blue), ((104,10), Kind.Ho, Color.blue),
   ((100,1), Kind.Gu, Color.red), ((102,1), Kind.Gu, Color.red),
   ((100,10), Kind.Gu, Color.blue), ((102,10), Kind.Gu, Color.blue),
   ((101,2), Kind.Ge, Color.red),
   ((101,9), Kind.Ge, Color.blue)]

/-- Lattice points of a ray: `p + m·u`. -/
def rayPt (p u : Int × Int) (m : Int) : Int × Int :=
  (p.1 + m * u.1, p.2 + m * u.2)

/-- The four orthogonal unit step vectors. -/
def rayDirs : List (Int × Int) :=
  [(1,0), (-1,0), (0,1), (0,-1)]

/-- A cell holding a piece of `player`'s color that has some generated
move whose hypothetical application (`update_position` from that cell)
yields a position where `is_in_check(chk)` is false.  With
`chk = s.turn` this is exactly the success condition of one outer
iteration of `is_in_checkmate`; with `chk = player` it is the
specification's escape condition. -/
def escapeAt (s : GameState) (player chk : Color) (pos : Int × Int) : Bool :=
  match boardAt s.positions pos with
  | none => false
  | some id =>
    (getPiece s.pieces id).color == player &&
    ((findMoves (getPiece s.pieces id) s.positions s.pieces gamePalaces).any
      fun m => !(isInCheck (updatePosition s id pos m) chk))

/-! ## Helper lemmas -/

theorem landable_mem {c : Color} {positions : List (Option Nat)}
    {pieces : List Piece} {q y : Int × Int}
    (h : y ∈ landable c positions pieces q) : y = q := by
  unfold landable at h
  split at h
  · simpa using h
  · split at h
    · simpa using h
    · simp at h

theorem getD_set_self {α : Type} (l : List α) (i : Nat) (a d : α)
    (h : i < l.length) : (l.set i a).getD i d = a := by
  induction l generalizing i with
  | nil => simp at h
  | cons x xs ih =>
    cases i with
    | zero => rfl
    | succ n => simpa using ih n (by simpa using h)

theorem set_getD_self {α : Type} (l : List α) (i : Nat) (d : α)
    (h : i < l.length) : l.set i (l.getD i d) = l := by
  induction l generalizing i with
  | nil => simp at h
  | cons x xs ih =>
    cases i with
    | zero => rfl
    | succ n => simpa using ih n (by simpa using h)

theorem set_set_same {α : Type} (l : List α) (i : Nat) (a b : α) :
    (l.set i a).set i b = l.set i b := by
  induction l generalizing i with
  | nil => rfl
  | cons x xs ih =>
    cases i with
    | zero => rfl
    | succ n => simp [ih n]

theorem wfState_spec {s : GameState} (hwf : wfState s = true) {p : Int × Int}
    (hp : p ∈ allPositions) {id : Nat} (hid : boardAt s.positions p = some id) :
    id < s.pieces.length ∧ (getPiece s.pieces id).location = p := by
  have h := List.all_eq_true.mp hwf p hp
  rw [hid] at h
  simpa using h

theorem escapeAt_true_iff (s : GameState) (player chk : Color) (pos : Int × Int) :
    escapeAt s player chk pos = true ↔
      ∃ id, boardAt s.positions pos = some id ∧
        (getPiece s.pieces id).color = player ∧
        ∃ m ∈ findMoves (getPiece s.pieces id) s.positions s.pieces gamePalaces,
          isInCheck (updatePosition s id pos m) chk = false := by
  unfold escapeAt
  cases h : boardAt s.positions pos <;> simp [h, List.any_eq_true]

/-! ## Claim theorems (part 1) -/

/-- C8: a newly created game has exactly the 32 pieces of the fixed
starting table on the board (matching side and kind cell by cell, with
the dual piece-location bookkeeping consistent), the other 58 of the 90
cells empty, turn Blue, outcome Unfinished, and move counter 0. -/
theorem initial_layout_correct :
    initialGame.game_state = GState.UNFINISHED ∧
    initialGame.turn = Color.blue ∧
    initialGame.current_move = 0 ∧
    initialGame.pieces.length = 32 ∧
    (allPositions.filter fun p => (boardAt initialGame.positions p).isSome).length = 32 ∧
    (allPositions.filter fun p => (boardAt initialGame.positions p).isNone).length = 58 ∧
    wfState initialGame = true ∧
    ∀ p ∈ allPositions, occupant initialGame p = List.lookup p specStartTable := by
  decide

/-- C10: a Guard and a General of the same color, direction and location
generate exactly the same move list on every board, heap and palace
table; the two kinds' move generation functions are extensionally equal
and differ only in the name tag of the piece. -/
theorem guard_general_find_moves_equal (c : Color) (d : Int) (loc : Int × Int)
    (positions : List (Option Nat)) (pieces : List Piece) (palaces : Palaces) :
    guardFindMoves { kind := Kind.Gu, color := c, direction := d, location := loc }
      positions pieces palaces =
    generalFindMoves { kind := Kind.Ge, color := c, direction := d, location := loc }
      positions pieces palaces := rfl

/-- C3 (code evaluated at the failing inputs): a source string that is
not a well-formed board coordinate (`"z5"`, `"a11"`, `""`) makes
`make_move` raise `KeyError` at `positions[source]` (modelled as
`Except.error`), instead of returning the boolean rejection the claim
requires. -/
theorem make_move_malformed_source_raises :
    makeMoveStr initialGame ("z5") ("e5") = Except.error () ∧
    makeMoveStr initialGame ("a11") ("e5") = Except.error () ∧
    makeMoveStr initialGame ("") ("e5") = Except.error () := by
  refine ⟨rfl, rfl, rfl⟩

/-- C1 (code evaluated at the failing input): `make_move` never reads
`_game_state`, so on a game whose outcome is `RED_WON` the move
`e9 → d9` of the blue General is accepted: it returns `True`, increments
the move counter, flips the turn and mutates the board. -/
theorem make_move_ignores_terminal_outcome :
    terminalState.game_state = GState.RED_WON ∧
    (makeMove terminalState (101,9) (100,9)).1 = true ∧
    (makeMove terminalState (101,9) (100,9)).2.current_move = 1 ∧
    (makeMove terminalState (101,9) (100,9)).2.turn = Color.red ∧
    (makeMove terminalState (101,9) (100,9)).2.positions ≠ terminalState.positions := by
  decide

/-- C2 (code evaluated at the failing input): on `pinnedState` the move
`e9 → e8` is pseudo-legal but leaves blue in check, so `make_move`
returns `False` and restores the board dictionary — but the General
object's own location member keeps the value `e8` while the board stores
the piece under `e9`, breaking the location-consistency invariant the
claim requires to survive every rejection. -/
theorem make_move_rejection_leaves_stale_location :
    wfState pinnedState = true ∧
    (makeMove pinnedState (101,9) (101,8)).1 = false ∧
    (makeMove pinnedState (101,9) (101,8)).2.positions = pinnedState.positions ∧
    boardAt (makeMove pinnedState (101,9) (101,8)).2.positions (101,9) = some 0 ∧
    (getPiece (makeMove pinnedState (101,9) (101,8)).2.pieces 0).location = (101,8) ∧
    wfState (makeMove pinnedState (101,9) (101,8)).2 = false := by
  decide

/-- C9 counterexample: a red Soldier on `a1` gets no forward move even
though the forward destination `a2` is on the board and empty — the
source guards the forward step with `1 < rank < 10`, contradicting the
claim's parenthetical about rank-1/rank-10 sources. -/
theorem soldier_rank_one_forward_missing :
    posIdx (97,2) ≠ none ∧
    boardAt rankOneSoldierBoard (97,2) = none ∧
    ((97,2) : Int × Int) ∉ soldierFindMoves (mkPiece Kind.So Color.red (97,1))
      rankOneSoldierBoard rankOneSoldierPieces gamePalaces := by
  decide

/-- C5 counterexample: a blue Chariot on the palace corner `d8` is
offered the corner-to-opposite-corner move `d8 → f10` even though the
intervening palace center `e9` is occupied (by a red Soldier): the
source tests the opposite corner without any blocking test on the
center. -/
theorem chariot_palace_jump_ignores_center_block :
    boardAt cornerChariotBoard (101,9) = some 1 ∧
    ((102,10) : Int × Int) ∈ chariotFindMoves (mkPiece Kind.Ch Color.blue (100,8))
      cornerChariotBoard cornerChariotPieces gamePalaces := by
  decide

/-- C6 counterexample: a blue Cannon on the palace corner `d8` jumps the
palace diagonal to `f10` over a red *Cannon* standing on the palace
center `e9`: the palace-jump branch never checks the name of the screen
piece, contradicting the claim that the screen is never a Cannon. -/
theorem cannon_palace_jumps_over_cannon :
    (getPiece cornerCannonPieces 1).kind = Kind.Ca ∧
    boardAt cornerCannonBoard (101,9) = some 1 ∧
    ((102,10) : Int × Int) ∈ cannonFindMoves (mkPiece Kind.Ca Color.blue (100,8))
      cornerCannonBoard cornerCannonPieces gamePalaces := by
  decide

/-- C4 counterexample: on `mateMismatchState` (red to move, blue
checkmated, no red General on the board) `is_in_checkmate('blue')`
returns `False` although no hypothetical blue move yields
`is_in_check('blue') == False` — the source tests `self._turn` (red)
instead of the `player` argument, so the claimed equivalence fails for a
side that is not the current turn. -/
theorem checkmate_side_argument_ignored :
    ¬ (((isInCheckmate mateMismatchState Color.blue).1 = false) ↔
      ∃ pos ∈ allPositions, ∃ id,
        boardAt mateMismatchState.positions pos = some id ∧
        (getPiece mateMismatchState.pieces id).color = Color.blue ∧
        ∃ m ∈ findMoves (getPiece mateMismatchState.pieces id)
            mateMismatchState.positions mateMismatchState.pieces gamePalaces,
          isInCheck (updatePosition mateMismatchState id pos m) Color.blue = false) := by
  intro hiff
  have h1 : (isInCheckmate mateMismatchState Color.blue).1 = false := by decide
  obtain ⟨pos, hpos, hesc⟩ := hiff.mp h1
  have h2 : escapeAt mateMismatchState Color.blue Color.blue pos = true :=
    (escapeAt_true_iff mateMismatchState Color.blue Color.blue pos).mpr hesc
  have h3 : allPositions.all
      (fun q => !(escapeAt mateMismatchState Color.blue Color.blue q)) = true := by
    decide
  have h4 := List.all_eq_true.mp h3 pos hpos
  rw [h2] at h4
  simp at h4

theorem boardAt_replicate_none (q : Int × Int) :
    boardAt (List.replicate 90 (none : Option Nat)) q = none := by
  unfold boardAt boardGet
  cases h : posIdx q with
  | none => rfl
  | some i =>
    show (((List.replicate 90 (none : Option Nat)).get? i)).join = none
    cases hg : (List.replicate 90 (none : Option Nat)).get? i with
    | none => rfl
    | some v =>
      have hv : v = none := List.eq_of_mem_replicate (List.get?_mem hg)
      subst hv
      rfl

theorem landable_self_mem {c : Color} {positions : List (Option Nat)}
    {pieces : List Piece} {q : Int × Int}
    (hfree : ∀ id, boardAt positions q = some id → (getPiece pieces id).color ≠ c) :
    q ∈ landable c positions pieces q := by
  unfold landable
  cases h : boardAt positions q with
  | none => simp
  | some id => simp [hfree id h]

/-- C9 (amended): the left and right one-step destinations of a Soldier
are generated whenever they are on the board and not occupied by the
Soldier's own side; the forward (direction-signed) destination is
generated under the same occupancy condition *provided the source rank
is strictly between 1 and 10* (the source's guard `1 < rank < 10` omits
the forward move from ranks 1 and 10 even when the forward destination
is on the board). -/
theorem soldier_step_moves_present (positions : List (Option Nat))
    (pieces : List Piece) (self : Piece) :
    (posIdx (self.location.1 - 1, self.location.2) ≠ none →
      (∀ id, boardAt positions (self.location.1 - 1, self.location.2) = some id →
        (getPiece pieces id).color ≠ self.color) →
      (self.location.1 - 1, self.location.2) ∈
        soldierFindMoves self positions pieces gamePalaces) ∧
    (posIdx (self.location.1 + 1, self.location.2) ≠ none →
      (∀ id, boardAt positions (self.location.1 + 1, self.location.2) = some id →
        (getPiece pieces id).color ≠ self.color) →
      (self.location.1 + 1, self.location.2) ∈
        soldierFindMoves self positions pieces gamePalaces) ∧
    (1 < self.location.2 → self.location.2 < 10 →
      (∀ id, boardAt positions (self.location.1, self.location.2 + self.direction) = some id →
        (getPiece pieces id).color ≠ self.color) →
      (self.location.1, self.location.2 + self.direction) ∈
        soldierFindMoves self positions pieces gamePalaces) := by
  refine ⟨?_, ?_, ?_⟩
  · intro hon hfree
    have hgt : self.location.1 > 97 := by
      unfold posIdx at hon
      split at hon
      · omega
      · simp at hon
    unfold soldierFindMoves
    refine List.mem_append_left _ (List.mem_append_left _ (List.mem_append_left _
      (List.mem_append_right _ ?_)))
    rw [if_pos hgt]
    exact landable_self_mem hfree
  · intro hon hfree
    have hlt : self.location.1 < 105 := by
      unfold posIdx at hon
      split at hon
      · omega
      · simp at hon
    unfold soldierFindMoves
    refine List.mem_append_left _ (List.mem_append_left _
      (List.mem_append_right _ ?_))
    rw [if_pos hlt]
    exact landable_self_mem hfree
  · intro h1 h2 hfree
    unfold soldierFindMoves
    refine List.mem_append_left _ (List.mem_append_right _ ?_)
    rw [if_pos ⟨h1, h2⟩, one_mul]
    exact landable_self_mem hfree

/-- C9 witness: a red Soldier on `e4` on an otherwise empty board is
offered `d4`, `f4` and `e5`. -/
theorem soldier_step_moves_witness :
    ((100,4) : Int × Int) ∈ soldierFindMoves (mkPiece Kind.So Color.red (101,4))
      (List.replicate 90 none) [] gamePalaces ∧
    ((102,4) : Int × Int) ∈ soldierFindMoves (mkPiece Kind.So Color.red (101,4))
      (List.replicate 90 none) [] gamePalaces ∧
    ((101,5) : Int × Int) ∈ soldierFindMoves (mkPiece Kind.So Color.red (101,4))
      (List.replicate 90 none) [] gamePalaces := by
  have h := soldier_step_moves_present (List.replicate 90 none) []
    (mkPiece Kind.So Color.red (101,4))
  have hfree : ∀ q : Int × Int, ∀ id,
      boardAt (List.replicate 90 none) q = some id →
      (getPiece ([] : List Piece) id).color ≠ (mkPiece Kind.So Color.red (101,4)).color := by
    intro q id hq
    rw [boardAt_replicate_none] at hq
    cases hq
  refine ⟨?_, ?_, ?_⟩
  · exact h.1 (by decide) (hfree (100,4))
  · exact h.2.1 (by decide) (hfree (102,4))
  · have := h.2.2 (by decide) (by decide) (hfree (101, 4 + 1))
    simpa using this

/-! ## Ray lemmas for the sliding pieces -/

theorem rayPt_one (p u : Int × Int) : rayPt p u 1 = (p.1 + u.1, p.2 + u.2) := by
  simp only [rayPt, Prod.mk.injEq]
  constructor <;> ring

theorem rayPt_step (p u : Int × Int) (j : Int) :
    rayPt (p.1 + u.1, p.2 + u.2) u j = rayPt p u (j + 1) := by
  simp only [rayPt, Prod.mk.injEq]
  constructor <;> ring

/-- Every destination produced by a Chariot slide is `i` steps along the
ray for some `i ≥ 1`, with all strictly earlier ray cells empty. -/
theorem chariotRay_mem {positions : List (Option Nat)} {pieces : List Piece}
    {c : Color} (fuel : Nat) (p : Int × Int) {u x : Int × Int}
    (h : x ∈ chariotRay positions pieces c fuel p u) :
    ∃ i : Int, 1 ≤ i ∧ x = rayPt p u i ∧
      ∀ j : Int, 1 ≤ j → j < i → boardGet positions (rayPt p u j) = some none := by
  induction fuel generalizing p with
  | zero => simp [chariotRay] at h
  | succ n ih =>
    simp only [chariotRay] at h
    cases hb : boardGet positions (p.1 + u.1, p.2 + u.2) with
    | none => simp only [hb] at h; simp at h
    | some cell =>
      cases cell with
      | none =>
        simp only [hb] at h
        rcases List.mem_cons.mp h with rfl | hrec
        · refine ⟨1, le_refl 1, by rw [rayPt_one], ?_⟩
          intro j hj1 hj2
          omega
        · obtain ⟨i, hi, hx, hemp⟩ := ih _ hrec
          refine ⟨i + 1, by omega, by rw [hx, rayPt_step], ?_⟩
          intro j hj1 hj2
          rcases eq_or_lt_of_le hj1 with heq | hlt
          · rw [← heq, rayPt_one]
            exact hb
          · have h9 := hemp (j - 1) (by omega) (by omega)
            rw [rayPt_step] at h9
            have hj : j - 1 + 1 = j := by omega
            rw [hj] at h9
            exact h9
      | some id =>
        simp only [hb] at h
        split at h
        · refine ⟨1, le_refl 1, by rw [List.mem_singleton.mp h, rayPt_one], ?_⟩
          intro j hj1 hj2
          omega
        · simp at h

/-- A Chariot slide destination on one ray cannot lie beyond an occupied
cell of another (or the same) ray. -/
theorem chariot_ray_blocked_aux {positions : List (Option Nat)} {pieces : List Piece}
    {c : Color} {p u v : Int × Int} {k m : Int} {id : Nat}
    (hu : u ∈ rayDirs) (hv : v ∈ rayDirs) (hk : 1 ≤ k) (hkm : k < m)
    (hocc : boardGet positions (rayPt p u k) = some (some id))
    (hmem : rayPt p u m ∈ chariotRay positions pieces c rayFuel p v) : False := by
  obtain ⟨i, hi, hx, hemp⟩ := chariotRay_mem rayFuel p hmem
  simp only [rayDirs, List.mem_cons, List.mem_singleton, List.not_mem_nil,
    or_false] at hu hv
  rcases hu with rfl | rfl | rfl | rfl <;> rcases hv with rfl | rfl | rfl | rfl <;>
    simp only [rayPt, Prod.mk.injEq, mul_one, mul_zero, mul_neg_one, add_zero] at hx <;>
    first
      | omega
      | (have h5 := hemp k hk (by omega)
         rw [h5] at hocc
         simp at hocc)

/-- A destination of the Chariot's palace movement block differs from
the source in both coordinates (the diagonal steps of the concrete
palace table). -/
theorem chariotPalaceMoves_ne {positions : List (Option Nat)} {pieces : List Piece}
    {c : Color} {p y : Int × Int}
    (h : y ∈ chariotPalaceMoves positions pieces c gamePalaces p) :
    y.1 ≠ p.1 ∧ y.2 ≠ p.2 := by
  unfold chariotPalaceMoves at h
  by_cases hb : p ∈ gamePalaces.blue_palace_corners
  · simp only [hb, if_true] at h
    have hb' : p ∈ [((100 : Int),(8 : Int)), (100,10), (102,8), (102,10)] := hb
    simp only [List.mem_cons, List.mem_singleton, List.not_mem_nil, or_false] at hb'
    rcases List.mem_append.mp h with h | h <;>
      rcases landable_mem h with rfl <;>
      rcases hb' with rfl | rfl | rfl | rfl <;>
      decide
  · simp only [if_neg hb] at h
    by_cases hr : p ∈ gamePalaces.red_palace_corners
    · simp only [hr, if_true] at h
      have hr' : p ∈ [((100 : Int),(1 : Int)), (100,3), (102,1), (102,3)] := hr
      simp only [List.mem_cons, List.mem_singleton, List.not_mem_nil, or_false] at hr'
      rcases List.mem_append.mp h with h | h <;>
        rcases landable_mem h with rfl <;>
        rcases hr' with rfl | rfl | rfl | rfl <;>
        decide
    · simp only [if_neg hr] at h
      by_cases hc : p = gamePalaces.red_palace_center
      · simp only [hc, if_true] at h
        subst hc
        simp only [gamePalaces, List.foldr] at h
        rcases List.mem_append.mp h with h | h
        · rcases landable_mem h with rfl; decide
        · rcases List.mem_append.mp h with h | h
          · rcases landable_mem h with rfl; decide
          · rcases List.mem_append.mp h with h | h
            · rcases landable_mem h with rfl; decide
            · rcases List.mem_append.mp h with h | h
              · rcases landable_mem h with rfl; decide
              · simp at h
      · simp only [if_neg hc] at h
        simp at h

/-- C5 (amended): on every board configuration the Chariot's generated
set contains no coordinate beyond the first occupied cell along any of
its four orthogonal rays.  (The palace corner-to-opposite-corner
diagonal, however, is generated by the source regardless of whether the
palace center is occupied — see the counterexample — so the amended
claim drops that clause.) -/
theorem chariot_no_move_past_blocker (positions : List (Option Nat))
    (pieces : List Piece) (self : Piece)
    (hdir : self.direction = 1 ∨ self.direction = -1)
    (u : Int × Int) (hu : u ∈ rayDirs) (k m : Int) (id : Nat)
    (hk : 1 ≤ k) (hkm : k < m)
    (hocc : boardGet positions (rayPt self.location u k) = some (some id)) :
    rayPt self.location u m ∉ chariotFindMoves self positions pieces gamePalaces := by
  intro hmem
  unfold chariotFindMoves at hmem
  rcases hdir with hd | hd <;> rw [hd] at hmem <;>
    simp only [List.mem_append, List.mem_singleton] at hmem <;>
    rcases hmem with ((((hp | h1) | h2) | h3) | h4) | hpal <;>
    first
      | (have hu' := hu
         simp only [rayDirs, List.mem_cons, List.mem_singleton, List.not_mem_nil,
           or_false] at hu'
         rcases hu' with rfl | rfl | rfl | rfl <;>
           simp only [rayPt, Prod.ext_iff, mul_one, mul_zero, mul_neg_one,
             add_zero] at hp <;>
           omega)
      | exact chariot_ray_blocked_aux hu (by decide) hk hkm hocc h1
      | exact chariot_ray_blocked_aux hu (by decide) hk hkm hocc h2
      | exact chariot_ray_blocked_aux hu (by decide) hk hkm hocc h3
      | exact chariot_ray_blocked_aux hu (by decide) hk hkm hocc h4
      | (obtain ⟨hne1, hne2⟩ := chariotPalaceMoves_ne hpal
         have hu' := hu
         simp only [rayDirs, List.mem_cons, List.mem_singleton, List.not_mem_nil,
           or_false] at hu'
         rcases hu' with rfl | rfl | rfl | rfl
         · exact hne2 (by simp [rayPt])
         · exact hne2 (by simp [rayPt])
         · exact hne1 (by simp [rayPt])
         · exact hne1 (by simp [rayPt]))

/-- Board with a blue Chariot on `a1` (index 0) and a blue Soldier
blocking its file on `a3` (index 1). -/
def blockedFileBoard : List (Option Nat) :=
  placeAll [(Kind.Ch, Color.blue, (97,1)), (Kind.So, Color.blue, (97,3))]
    0 (List.replicate 90 none)

/-- The pieces of `blockedFileBoard`. -/
def blockedFilePieces : List Piece :=
  [mkPiece Kind.Ch Color.blue (97,1), mkPiece Kind.So Color.blue (97,3)]

/-- C5 witness: with its file blocked on `a3`, the Chariot on `a1` is
not offered `a6`. -/
theorem chariot_no_move_past_blocker_witness :
    rayPt (97,1) (0,1) 5 ∉ chariotFindMoves (mkPiece Kind.Ch Color.blue (97,1))
      blockedFileBoard blockedFilePieces gamePalaces :=
  chariot_no_move_past_blocker blockedFileBoard blockedFilePieces
    (mkPiece Kind.Ch Color.blue (97,1)) (Or.inr (by decide)) (0,1) (by decide)
    2 5 1 (by decide) (by decide) (by decide)

/-- Characterisation of a Cannon slide after the screen was found: the
destination is beyond only empty cells and, if occupied, holds an
opposing non-Cannon piece. -/
theorem cannonRay_true_mem {positions : List (Option Nat)} {pieces : List Piece}
    {c : Color} (fuel : Nat) (p : Int × Int) {u x : Int × Int}
    (h : x ∈ cannonRay positions pieces c fuel true p u) :
    ∃ m : Int, 1 ≤ m ∧ x = rayPt p u m ∧
      (∀ j : Int, 1 ≤ j → j < m → boardGet positions (rayPt p u j) = some none) ∧
      ∀ id, boardGet positions x = some (some id) →
        (getPiece pieces id).kind ≠ Kind.Ca ∧ (getPiece pieces id).color ≠ c := by
  induction fuel generalizing p with
  | zero => simp [cannonRay] at h
  | succ n ih =>
    simp only [cannonRay] at h
    cases hb : boardGet positions (p.1 + u.1, p.2 + u.2) with
    | none => simp only [hb] at h; simp at h
    | some cell =>
      cases cell with
      | none =>
        simp only [hb] at h
        rcases List.mem_cons.mp h with rfl | hrec
        · refine ⟨1, le_refl 1, by rw [rayPt_one], ?_, ?_⟩
          · intro j hj1 hj2; omega
          · intro id hid
            rw [hb] at hid
            simp at hid
        · obtain ⟨m', hm', hx, hemp, hdest⟩ := ih _ hrec
          refine ⟨m' + 1, by omega, by rw [hx, rayPt_step], ?_, hdest⟩
          intro j hj1 hj2
          rcases eq_or_lt_of_le hj1 with heq | hlt
          · rw [← heq, rayPt_one]
            exact hb
          · have h9 := hemp (j - 1) (by omega) (by omega)
            rw [rayPt_step] at h9
            have hj : j - 1 + 1 = j := by omega
            rw [hj] at h9
            exact h9
      | some id0 =>
        simp only [hb] at h
        by_cases hca : (getPiece pieces id0).kind = Kind.Ca
        · rw [if_pos hca] at h
          simp at h
        · rw [if_neg hca] at h
          by_cases hcol : (getPiece pieces id0).color ≠ c
          · rw [if_pos hcol] at h
            have hx := List.mem_singleton.mp h
            subst hx
            refine ⟨1, le_refl 1, by rw [rayPt_one], ?_, ?_⟩
            · intro j hj1 hj2; omega
            · intro id hid
              rw [hb] at hid
              have hii : id0 = id := by simpa using hid
              rw [← hii]
              exact ⟨hca, hcol⟩
          · rw [if_neg hcol] at h
            simp at h

/-- Characterisation of a full Cannon slide: a destination is `m ≥ 2`
steps out, with exactly one occupied cell strictly before it — the
screen at step `k`, which is not a Cannon — and a destination cell that
is empty or holds an opposing non-Cannon piece. -/
theorem cannonRay_false_mem {positions : List (Option Nat)} {pieces : List Piece}
    {c : Color} (fuel : Nat) (p : Int × Int) {u x : Int × Int}
    (h : x ∈ cannonRay positions pieces c fuel false p u) :
    ∃ k m : Int, 1 ≤ k ∧ k < m ∧ x = rayPt p u m ∧
      (∃ id, boardGet positions (rayPt p u k) = some (some id) ∧
        (getPiece pieces id).kind ≠ Kind.Ca) ∧
      (∀ j : Int, 1 ≤ j → j < m → j ≠ k → boardGet positions (rayPt p u j) = some none) ∧
      ∀ id, boardGet positions x = some (some id) →
        (getPiece pieces id).kind ≠ Kind.Ca ∧ (getPiece pieces id).color ≠ c := by
  induction fuel generalizing p with
  | zero => simp [cannonRay] at h
  | succ n ih =>
    simp only [cannonRay] at h
    cases hb : boardGet positions (p.1 + u.1, p.2 + u.2) with
    | none => simp only [hb] at h; simp at h
    | some cell =>
      cases cell with
      | none =>
        simp only [hb] at h
        obtain ⟨k', m', hk', hkm', hx, ⟨id0, hocc0, hnca0⟩, hemp, hdest⟩ := ih _ h
        refine ⟨k' + 1, m' + 1, by omega, by omega, by rw [hx, rayPt_step],
          ⟨id0, ?_, hnca0⟩, ?_, hdest⟩
        · rw [← rayPt_step]
          exact hocc0
        · intro j hj1 hj2 hjk
          rcases eq_or_lt_of_le hj1 with heq | hlt
          · rw [← heq, rayPt_one]
            exact hb
          · have h9 := hemp (j - 1) (by omega) (by omega) (by omega)
            rw [rayPt_step] at h9
            have hj : j - 1 + 1 = j := by omega
            rw [hj] at h9
            exact h9
      | some id0 =>
        simp only [hb] at h
        by_cases hca : (getPiece pieces id0).kind = Kind.Ca
        · rw [if_pos hca] at h
          simp at h
        · rw [if_neg hca] at h
          obtain ⟨m', hm', hx, hemp, hdest⟩ := cannonRay_true_mem n _ h
          refine ⟨1, m' + 1, le_refl 1, by omega, by rw [hx, rayPt_step],
            ⟨id0, by rw [rayPt_one]; exact hb, hca⟩, ?_, hdest⟩
          intro j hj1 hj2 hjk
          have h9 := hemp (j - 1) (by omega) (by omega)
          rw [rayPt_step] at h9
          have hj : j - 1 + 1 = j := by omega
          rw [hj] at h9
          exact h9

/-- A destination of the Cannon's palace jump differs from the source in
both coordinates. -/
theorem cannonPalaceMoves_ne {positions : List (Option Nat)} {pieces : List Piece}
    {c : Color} {palaces : Palaces} {p y : Int × Int}
    (h : y ∈ cannonPalaceMoves positions pieces c palaces p) :
    y.1 ≠ p.1 ∧ y.2 ≠ p.2 := by
  have key : ∀ center : Int × Int, y = oppositeCorner p center →
      y.1 ≠ p.1 ∧ y.2 ≠ p.2 := by
    intro center hy
    subst hy
    refine ⟨?_, ?_⟩ <;> simp only [oppositeCorner] <;> split <;> omega
  unfold cannonPalaceMoves at h
  by_cases hb : p ∈ palaces.blue_palace_corners
  · simp only [hb, if_true] at h
    split at h
    · exact key _ (landable_mem h)
    · simp at h
  · simp only [hb, if_false] at h
    split at h
    · split at h
      · exact key _ (landable_mem h)
      · simp at h
    · simp at h

/-- A Cannon slide destination, seen as `m` steps along a ray direction,
never jumps an intermediate Cannon and never lands on a Cannon. -/
theorem cannon_ray_aux {positions : List (Option Nat)} {pieces : List Piece}
    {c : Color} {p u v : Int × Int} {m : Int}
    (hu : u ∈ rayDirs) (hv : v ∈ rayDirs) (hm : 1 ≤ m)
    (hmem : rayPt p u m ∈ cannonRay positions pieces c rayFuel false p v) :
    (∀ j : Int, 1 ≤ j → j < m → ∀ id,
        boardGet positions (rayPt p u j) = some (some id) →
        (getPiece pieces id).kind ≠ Kind.Ca) ∧
    (∀ id, boardGet positions (rayPt p u m) = some (some id) →
      (getPiece pieces id).kind ≠ Kind.Ca ∧ (getPiece pieces id).color ≠ c) := by
  obtain ⟨k', m', hk', hkm', hx, ⟨id0, hocc0, hnca0⟩, hemp, hdest⟩ :=
    cannonRay_false_mem rayFuel p hmem
  simp only [rayDirs, List.mem_cons, List.mem_singleton, List.not_mem_nil,
    or_false] at hu hv
  rcases hu with rfl | rfl | rfl | rfl <;> rcases hv with rfl | rfl | rfl | rfl <;>
    simp only [rayPt, Prod.mk.injEq, mul_one, mul_zero, mul_neg_one, add_zero] at hx <;>
    first
      | (exfalso; omega)
      | (refine ⟨?_, hdest⟩
         intro j hj1 hj2 id hid
         by_cases hjk : j = k'
         · subst hjk
           rw [hocc0] at hid
           have hii : id0 = id := by simpa using hid
           rw [← hii]
           exact hnca0
         · have h9 := hemp j hj1 (by omega) hjk
           rw [h9] at hid
           simp at hid)

/-- C6 (amended): every Cannon move that lies on one of the four
orthogonal rays from its position (`m ≥ 1` unit steps away) jumps no
Cannon — every occupied cell strictly between source and destination
holds a non-Cannon piece — and its destination, if occupied, holds an
opposing non-Cannon piece.  (The palace-diagonal jump, by contrast, is
generated over *any* occupied center, including a Cannon, and may
capture an opposing Cannon on the far corner — see the counterexample —
so the amended claim restricts the guarantee to the orthogonal rays.) -/
theorem cannon_ray_no_cannon_jump_or_capture (positions : List (Option Nat))
    (pieces : List Piece) (self : Piece)
    (hdir : self.direction = 1 ∨ self.direction = -1)
    (u : Int × Int) (hu : u ∈ rayDirs) (m : Int) (hm : 1 ≤ m)
    (hmem : rayPt self.location u m ∈
      cannonFindMoves self positions pieces gamePalaces) :
    (∀ j : Int, 1 ≤ j → j < m → ∀ id,
        boardGet positions (rayPt self.location u j) = some (some id) →
        (getPiece pieces id).kind ≠ Kind.Ca) ∧
    (∀ id, boardGet positions (rayPt self.location u m) = some (some id) →
      (getPiece pieces id).kind ≠ Kind.Ca ∧
      (getPiece pieces id).color ≠ self.color) := by
  unfold cannonFindMoves at hmem
  rcases hdir with hd | hd <;> rw [hd] at hmem <;>
    simp only [List.mem_append, List.mem_singleton] at hmem <;>
    rcases hmem with ((((hp | h1) | h2) | h3) | h4) | hpal <;>
    first
      | (exfalso
         have hu' := hu
         simp only [rayDirs, List.mem_cons, List.mem_singleton, List.not_mem_nil,
           or_false] at hu'
         rcases hu' with rfl | rfl | rfl | rfl <;>
           simp only [rayPt, Prod.ext_iff, mul_one, mul_zero, mul_neg_one,
             add_zero] at hp <;>
           omega)
      | exact cannon_ray_aux hu (by decide) hm h1
      | exact cannon_ray_aux hu (by decide) hm h2
      | exact cannon_ray_aux hu (by decide) hm h3
      | exact cannon_ray_aux hu (by decide) hm h4
      | (exfalso
         obtain ⟨hne1, hne2⟩ := cannonPalaceMoves_ne hpal
         have hu' := hu
         simp only [rayDirs, List.mem_cons, List.mem_singleton, List.not_mem_nil,
           or_false] at hu'
         rcases hu' with rfl | rfl | rfl | rfl
         · exact hne2 (by simp [rayPt])
         · exact hne2 (by simp [rayPt])
         · exact hne1 (by simp [rayPt])
         · exact hne1 (by simp [rayPt]))

/-- Board with a blue Cannon on `a1` (index 0), a red Soldier screen on
`a4` (index 1) and a red Soldier target on `a6` (index 2). -/
def cannonWitnessBoard : List (Option Nat) :=
  placeAll [(Kind.Ca, Color.blue, (97,1)), (Kind.So, Color.red, (97,4)),
    (Kind.So, Color.red, (97,6))] 0 (List.replicate 90 none)

/-- The pieces of `cannonWitnessBoard`. -/
def cannonWitnessPieces : List Piece :=
  [mkPiece Kind.Ca Color.blue (97,1), mkPiece Kind.So Color.red (97,4),
   mkPiece Kind.So Color.red (97,6)]

/-- C6 witness: the Cannon capture `a1 → a6` over the `a4` screen
satisfies the no-Cannon guarantees. -/
theorem cannon_ray_no_cannon_jump_witness :
    (∀ j : Int, 1 ≤ j → j < 5 → ∀ id,
        boardGet cannonWitnessBoard (rayPt (97,1) (0,1) j) = some (some id) →
        (getPiece cannonWitnessPieces id).kind ≠ Kind.Ca) ∧
    (∀ id, boardGet cannonWitnessBoard (rayPt (97,1) (0,1) 5) = some (some id) →
      (getPiece cannonWitnessPieces id).kind ≠ Kind.Ca ∧
      (getPiece cannonWitnessPieces id).color ≠ Color.blue) :=
  cannon_ray_no_cannon_jump_or_capture cannonWitnessBoard cannonWitnessPieces
    (mkPiece Kind.Ca Color.blue (97,1)) (Or.inr (by decide)) (0,1) (by decide)
    5 (by decide) (by decide)

/-! ## The save/mutate/test/restore discipline of `is_in_checkmate` -/

theorem updatePosition_turn (s : GameState) (id : Nat) (src dst : Int × Int) :
    (updatePosition s id src dst).turn = s.turn := rfl

/-- Restoring the moved piece's location after a trial undoes the heap
mutation exactly, provided the piece is live and its location member
matched the board key before the trial. -/
theorem pieces_restore (l : List Piece) (id : Nat) (posKey mv : Int × Int)
    (hlen : id < l.length) (hloc : (getPiece l id).location = posKey) :
    (l.set id { getPiece l id with location := mv }).set id
      { getPiece (l.set id { getPiece l id with location := mv }) id with
        location := posKey } = l := by
  unfold getPiece at hloc ⊢
  rw [getD_set_self _ _ _ _ hlen]
  show (l.set id _).set id { l.getD id dummyPiece with location := posKey } = l
  rw [set_set_same, ← hloc]
  show l.set id (l.getD id dummyPiece) = l
  exact set_getD_self l id dummyPiece hlen

/-- One `is_in_checkmate` trial — board saved, `update_position`
applied, board restored, piece location reset — is the identity on the
game state when the location invariant held for the tried piece. -/
theorem trial_restore (s : GameState) (id : Nat) (posKey mv : Int × Int)
    (hlen : id < s.pieces.length)
    (hloc : (getPiece s.pieces id).location = posKey) :
    trialRestore (updatePosition s id posKey mv) s.positions id posKey = s := by
  obtain ⟨g, t, ch, cm, pos, pcs⟩ := s
  simp only [trialRestore, updatePosition, GameState.mk.injEq, true_and]
  exact pieces_restore pcs id posKey mv (by simpa using hlen) (by simpa using hloc)

/-- The inner trial loop of `is_in_checkmate` leaves the state exactly
as it found it and reports whether some move escaped check. -/
theorem checkmateInnerLoop_spec (id : Nat) (posKey : Int × Int) (s : GameState)
    (hlen : id < s.pieces.length)
    (hloc : (getPiece s.pieces id).location = posKey) :
    ∀ moves : List (Int × Int),
      checkmateInnerLoop id posKey s moves =
        ((moves.any fun mv => !(isInCheck (updatePosition s id posKey mv) s.turn)), s) := by
  intro moves
  induction moves with
  | nil => rfl
  | cons mv rest ih =>
    simp only [checkmateInnerLoop]
    rw [hloc, trial_restore s id posKey mv hlen hloc, updatePosition_turn]
    cases hct : isInCheck (updatePosition s id posKey mv) s.turn with
    | true => rw [if_pos rfl, ih]; simp [List.any_cons, hct]
    | false => rw [if_neg (by simp)]; simp [List.any_cons, hct]

/-- The outer loop of `is_in_checkmate` over a list of board keys: the
state is returned untouched and the result is `true` exactly when no
cell holds a piece of `player` with an escaping move. -/
theorem checkmateOuterLoop_spec (player : Color) (s : GameState)
    (hwf : wfState s = true) :
    ∀ l : List (Int × Int), (∀ p ∈ l, p ∈ allPositions) →
      checkmateOuterLoop player s l =
        ((!(l.any fun pos => escapeAt s player s.turn pos)), s) := by
  intro l
  induction l with
  | nil => intro _; rfl
  | cons pos rest ih =>
    intro hsub
    have hrest : ∀ p ∈ rest, p ∈ allPositions := fun p hp => hsub p (List.mem_cons_of_mem _ hp)
    simp only [checkmateOuterLoop]
    cases hb : boardAt s.positions pos with
    | none =>
      rw [ih hrest]
      simp [List.any_cons, escapeAt, hb]
    | some id =>
      dsimp only
      obtain ⟨hlen, hloc⟩ := wfState_spec hwf (hsub pos (List.mem_cons_self pos rest)) hb
      by_cases hcol : (getPiece s.pieces id).color = player
      · rw [if_pos hcol,
          checkmateInnerLoop_spec id pos s hlen hloc
            (findMoves (getPiece s.pieces id) s.positions s.pieces gamePalaces)]
        cases hesc : (findMoves (getPiece s.pieces id) s.positions s.pieces
            gamePalaces).any fun mv => !(isInCheck (updatePosition s id pos mv) s.turn) with
        | true => simp [List.any_cons, escapeAt, hb, hcol, hesc]
        | false =>
          dsimp only
          rw [ih hrest]
          simp [List.any_cons, escapeAt, hb, hcol, hesc]
      · rw [if_neg hcol, ih hrest]
        simp [List.any_cons, escapeAt, hb, hcol]

/-- C7: `is_in_checkmate` (whose trials save, mutate and restore the
board and the tried piece's location) leaves the observable game state
exactly unchanged on every state satisfying the board/piece-location
consistency invariant, for either side; hence repeated calls to it — and
to the read-only `is_in_check` — return the same results.  (`is_in_check`
itself is embedded as a pure read of the state: the only member the
Python version touches is the `_possible_moves` cache, which is outside
the observable state named by the claim.) -/
theorem is_in_checkmate_preserves_state (s : GameState) (player : Color)
    (hwf : wfState s = true) :
    (isInCheckmate s player).2 = s ∧
    isInCheckmate ((isInCheckmate s player).2) player = isInCheckmate s player ∧
    isInCheck ((isInCheckmate s player).2) player = isInCheck s player := by
  have h := checkmateOuterLoop_spec player s hwf allPositions (fun p hp => hp)
  refine ⟨?_, ?_, ?_⟩ <;> simp [isInCheckmate, h]

/-- C7 witness: on `pinnedState` (which satisfies the invariant) the
checkmate test returns the state it was given. -/
theorem is_in_checkmate_preserves_state_witness :
    (isInCheckmate pinnedState Color.blue).2 = pinnedState ∧
    isInCheckmate ((isInCheckmate pinnedState Color.blue).2) Color.blue =
      isInCheckmate pinnedState Color.blue ∧
    isInCheck ((isInCheckmate pinnedState Color.blue).2) Color.blue =
      isInCheck pinnedState Color.blue :=
  is_in_checkmate_preserves_state pinnedState Color.blue (by decide)

/-- C4 (amended): for a game state satisfying the board/piece-location
consistency invariant and a side `S` that *is the current turn*,
`is_in_checkmate(S)` returns `False` exactly when some piece of side `S`
has a generated move whose hypothetical application yields a position
with `is_in_check(S)` false.  (For `S` different from the current turn
the equivalence fails, because the source tests `is_in_check(self._turn)`
instead of `is_in_check(player)` — see the counterexample.) -/
theorem is_in_checkmate_false_iff_escape (s : GameState) (S : Color)
    (hwf : wfState s = true) (hturn : S = s.turn) :
    (isInCheckmate s S).1 = false ↔
      ∃ pos ∈ allPositions, ∃ id, boardAt s.positions pos = some id ∧
        (getPiece s.pieces id).color = S ∧
        ∃ m ∈ findMoves (getPiece s.pieces id) s.positions s.pieces gamePalaces,
          isInCheck (updatePosition s id pos m) S = false := by
  subst hturn
  have h := checkmateOuterLoop_spec s.turn s hwf allPositions (fun p hp => hp)
  have h1 : (isInCheckmate s s.turn).1 =
      !(allPositions.any fun pos => escapeAt s s.turn s.turn pos) := by
    unfold isInCheckmate
    rw [h]
  rw [h1, Bool.not_eq_false', List.any_eq_true]
  constructor
  · rintro ⟨pos, hpos, hesc⟩
    exact ⟨pos, hpos, (escapeAt_true_iff s s.turn s.turn pos).mp hesc⟩
  · rintro ⟨pos, hpos, hrest⟩
    exact ⟨pos, hpos, (escapeAt_true_iff s s.turn s.turn pos).mpr hrest⟩

/-- C4 witness: on `pinnedState` (blue to move, invariant holds) the
equivalence is exercised at `S` = blue. -/
theorem is_in_checkmate_false_iff_escape_witness :
    (isInCheckmate pinnedState Color.blue).1 = false ↔
      ∃ pos ∈ allPositions, ∃ id, boardAt pinnedState.positions pos = some id ∧
        (getPiece pinnedState.pieces id).color = Color.blue ∧
        ∃ m ∈ findMoves (getPiece pinnedState.pieces id) pinnedState.positions
            pinnedState.pieces gamePalaces,
          isInCheck (updatePosition pinnedState id pos m) Color.blue = false :=
  is_in_checkmate_false_iff_escape pinnedState Color.blue (by decide) rfl

end Janggi
